/-
  Verification of the hackmonitor scrape-and-reconcile pipeline.

  Shallow embedding of the core of the repository:
    - src/storage/excel_manager.py   (ExcelManager: the Record Store)
    - src/scrapers/hackathon_scraper.py (HackathonScraper: fetch + extract + filter)
    - src/hackathon_monitor_crossplatform.py (HackathonMonitor.run_scraping_cycle)

  Modelling conventions:
    - A workbook is a list of data rows (the header row is implicit); each
      row holds the seven cell values written by save_hackathons.  The
      Status cell is Option String because a legacy row may have fewer than
      seven cells (get_existing_hackathons defaults it to "New").
    - I/O is explicit: loading a workbook is an Except value; a Bool flag
      states whether a save succeeds.  Python try/except blocks become
      matches on Except, translated statement by statement.
    - Network fetches are inputs: an inductive value per URL records whether
      requests.get raised, the HTTP status, the page text, and (for API
      URLs) the parsed JSON payload, exactly the data the source consults.
    - Python dict.get with a default becomes Option.getD; datetime.now()
      is a string parameter `now` threaded through.
-/

import Mathlib

namespace HackMonitor

/-- Substring helpers modelling Python's `needle in haystack` on str. -/
def hasPrefCh : List Char → List Char → Bool
  | [], _ => true
  | _ :: _, [] => false
  | a :: as, b :: bs => a == b && hasPrefCh as bs

def hasSubCh (needle : List Char) : List Char → Bool
  | [] => needle.isEmpty
  | c :: t => hasPrefCh needle (c :: t) || hasSubCh needle t

/-- Python `needle in hay` for strings. -/
def strHasSub (hay needle : String) : Bool := hasSubCh needle.toList hay.toList

/-- Python str.lower(), modelled over ASCII. -/
def pyLower (s : String) : String := String.mk (s.toList.map Char.toLower)

/-- Python str.strip(): remove leading and trailing whitespace. -/
def pyStrip (s : String) : String :=
  String.mk (((s.toList.dropWhile Char.isWhitespace).reverse.dropWhile
    Char.isWhitespace).reverse)

/-- Python str.startswith(pre). -/
def pyStartsWith (s pre : String) : Bool := hasPrefCh pre.toList s.toList

/-- A scraped hackathon dict as built by the scraper methods
(keys: name, platform, link, start_date, tags, scraped_at). -/
structure Hackathon where
  name : String
  platform : String
  link : String
  start_date : String
  tags : String
  scraped_at : String
deriving DecidableEq, Repr

/-- One data row of the Hackathons worksheet (columns 1..7).  `statusCell`
is the Status column; `none` models a row shorter than seven cells. -/
structure StoreRow where
  name : String
  platform : String
  link : String
  start_date : String
  tags : String
  scraped_at : String
  statusCell : Option String
deriving DecidableEq, Repr

/-- A hackathon dict as returned by ExcelManager.get_existing_hackathons
(keys: name, platform, link, start_date, tags, scraped_at, status). -/
structure HackRecord where
  name : String
  platform : String
  link : String
  start_date : String
  tags : String
  scraped_at : String
  status : String
deriving DecidableEq, Repr

/-- Row built from a scraped dict by ExcelManager.save_hackathons: columns
1..6 are the dict values (via .get with default ''), column 7 is the
literal 'New'. -/
def rowOf (h : Hackathon) : StoreRow :=
  { name := h.name, platform := h.platform, link := h.link,
    start_date := h.start_date, tags := h.tags, scraped_at := h.scraped_at,
    statusCell := some "New" }

/-- Record built from a row by ExcelManager.get_existing_hackathons:
`row[6] if len(row) > 6 else 'New'` for the status. -/
def recordOfRow (r : StoreRow) : HackRecord :=
  { name := r.name, platform := r.platform, link := r.link,
    start_date := r.start_date, tags := r.tags, scraped_at := r.scraped_at,
    status := r.statusCell.getD "New" }

/-- ExcelManager.get_existing_hackathons.  The whole body is wrapped in
try/except: a failing load_workbook leaves the accumulator empty and the
empty list is returned.  A successful load iterates the data rows and keeps
those whose first cell (the name) is truthy, i.e. a non-empty string. -/
def get_existing_hackathons (load : Except Unit (List StoreRow)) : List HackRecord :=
  match load with
  | Except.error _ => []
  | Except.ok rows => (rows.filter (fun r => decide (r.name ≠ ""))).map recordOfRow

/-- ExcelManager.save_hackathons.  Appends one row per dict after the last
used row; `wb.save` failures are logged and re-raised, modelled by the
`writeOk` flag: a failed save propagates the exception (Except.error) and
leaves the file unchanged. -/
def save_hackathons (store : List StoreRow) (hackathons : List Hackathon)
    (writeOk : Bool) : Except Unit (List StoreRow) :=
  if writeOk then Except.ok (store ++ hackathons.map rowOf)
  else Except.error ()

/-- The in-memory cell edit done by ExcelManager.update_hackathon_status:
scan rows top to bottom, set the Status cell of the first row whose Name
cell equals `n` exactly, stop at the first match (`break`). -/
def applyUpdate (rows : List StoreRow) (n st : String) : List StoreRow :=
  match rows with
  | [] => []
  | r :: rs => if r.name = n then { r with statusCell := some st } :: rs
               else r :: applyUpdate rs n st

/-- ExcelManager.update_hackathon_status.  The body (load, scan/edit, save)
sits in a try/except with no re-raise: any failure is logged and the method
returns normally, leaving the file as it was.  The result is the final file
contents; it is Except-valued only to show that no exception escapes. -/
def update_hackathon_status (store : List StoreRow) (n st : String)
    (loadOk saveOk : Bool) : Except Unit (List StoreRow) :=
  let body : Except Unit (List StoreRow) := do
    let rows ← (if loadOk then Except.ok store else Except.error ())
    let updated := applyUpdate rows n st
    if saveOk then Except.ok updated else Except.error ()
  match body with
  | Except.ok r => Except.ok r
  | Except.error _ => Except.ok store

/-! ## HackathonScraper.parse_date

The method tries four regex patterns in order with `re.search` and returns
`match.group(1)` of the first pattern that matches; each group is the whole
pattern.  For these four concrete patterns a greedy matcher without
backtracking coincides with Python's regex engine, because every repeated
character class is followed by a character outside the class (a space after
`\w+`, a separator or nothing after a digit run) or has an exact count, so
no shorter repetition can ever succeed where the greedy one failed.
`\w`/`\d` are modelled over ASCII. -/

/-- ASCII model of the regex class `\w`. -/
def isWordChar (c : Char) : Bool := c.isAlphanum || c == '_'

/-- Greedy `\w+`-style run: the maximal word-character run and the rest. -/
def takeWordRun : List Char → List Char × List Char
  | [] => ([], [])
  | c :: cs =>
    if isWordChar c then
      let p := takeWordRun cs
      (c :: p.1, p.2)
    else ([], c :: cs)

/-- Up to `n` leading digits (greedy) and the rest. -/
def takeDigitsUpTo : Nat → List Char → List Char × List Char
  | 0, cs => ([], cs)
  | _ + 1, [] => ([], [])
  | n + 1, c :: cs =>
    if c.isDigit then
      let p := takeDigitsUpTo n cs
      (c :: p.1, p.2)
    else ([], c :: cs)

/-- One regex atom of the four date patterns. -/
inductive Tok where
  | word : Tok
  | digits : Nat → Nat → Tok
  | lit : Char → Tok
deriving DecidableEq, Repr

/-- Match a single atom at the head of the input, greedily. -/
def runTok : Tok → List Char → Option (List Char × List Char)
  | Tok.word, cs =>
    let p := takeWordRun cs
    if p.1.isEmpty then none else some p
  | Tok.digits lo hi, cs =>
    let p := takeDigitsUpTo hi cs
    if lo ≤ p.1.length then some p else none
  | Tok.lit ch, cs =>
    match cs with
    | [] => none
    | x :: xs => if x = ch then some ([ch], xs) else none

/-- Match a whole pattern at the head of the input. -/
def runToks : List Tok → List Char → Option (List Char × List Char)
  | [], cs => some ([], cs)
  | t :: ts, cs =>
    match runTok t cs with
    | none => none
    | some (a, r) =>
      match runToks ts r with
      | none => none
      | some (b, r2) => some (a ++ b, r2)

/-- Source pattern `(\w+ \d{1,2}, \d{4})`, e.g. "Jan 15, 2024". -/
def pat1 : List Tok :=
  [Tok.word, Tok.lit ' ', Tok.digits 1 2, Tok.lit ',', Tok.lit ' ', Tok.digits 4 4]

/-- Source pattern `(\d{1,2}/\d{1,2}/\d{4})`, e.g. "01/15/2024". -/
def pat2 : List Tok :=
  [Tok.digits 1 2, Tok.lit '/', Tok.digits 1 2, Tok.lit '/', Tok.digits 4 4]

/-- Source pattern `(\d{4}-\d{2}-\d{2})`, e.g. "2024-01-15". -/
def pat3 : List Tok :=
  [Tok.digits 4 4, Tok.lit '-', Tok.digits 2 2, Tok.lit '-', Tok.digits 2 2]

/-- Source pattern `(\w+ \d{1,2})`, e.g. "Jan 15". -/
def pat4 : List Tok := [Tok.word, Tok.lit ' ', Tok.digits 1 2]

/-- `re.search`: try the matcher at each start position, left to right, and
return the matched text of the leftmost success. -/
def searchWith (m : List Char → Option (List Char × List Char)) :
    List Char → Option (List Char)
  | [] =>
    match m [] with
    | some p => some p.1
    | none => none
  | c :: cs =>
    match m (c :: cs) with
    | some p => some p.1
    | none => searchWith m cs

/-- HackathonScraper.parse_date: empty input gives '', otherwise the first
of the four patterns that matches anywhere gives its leftmost match, and
with no match the input is returned verbatim. -/
def parse_date (date_text : String) : String :=
  if date_text = "" then ""
  else
    match searchWith (runToks pat1) date_text.toList with
    | some r => String.mk r
    | none =>
      match searchWith (runToks pat2) date_text.toList with
      | some r => String.mk r
      | none =>
        match searchWith (runToks pat3) date_text.toList with
        | some r => String.mk r
        | none =>
          match searchWith (runToks pat4) date_text.toList with
          | some r => String.mk r
          | none => date_text

/-! ## HackathonScraper.extract_hackathons_from_text

The regex-fallback extractor.  `re.findall(pattern, text, re.IGNORECASE)`
is taken as an input function from pattern string and text to match list;
the method strips each match, keeps those of length strictly between 10 and
100, collects them in a set (modelled as first-occurrence dedup) and turns
the first five into minimal records. -/

/-- The first source pattern of extract_hackathons_from_text. -/
def textPatA : String :=
  "([A-Z][a-zA-Z\\s]+(?:Hack|Hackathon|Challenge|Competition)[a-zA-Z\\s]*\\d*)"

/-- The second source pattern of extract_hackathons_from_text. -/
def textPatB : String :=
  "([A-Z][a-zA-Z\\s]*\\d*\\s*(?:Hack|Hackathon|Challenge|Competition))"

/-- The third source pattern of extract_hackathons_from_text. -/
def textPatC : String := "(\\d{4}\\s+[A-Z][a-zA-Z\\s]+(?:Hack|Hackathon))"

/-- HackathonScraper.extract_hackathons_from_text. -/
def extract_hackathons_from_text (findall : String → String → List String)
    (now text platform : String) : List Hackathon :=
  let patterns := [textPatA, textPatB, textPatC]
  let cleaned := (patterns.flatMap (fun p => findall p text)).map (fun m => pyStrip m)
  let found_names :=
    (cleaned.filter (fun n => decide (10 < n.length ∧ n.length < 100))).dedup
  (found_names.take 5).map (fun n =>
    { name := n, platform := platform,
      link := "https://" ++ pyLower platform ++ ".com",
      start_date := "", tags := platform ++ ", Extracted", scraped_at := now })

/-- HackathonScraper.create_sample_hackathons: the fixed per-platform
sample names and tags, with link, 'TBD' start date and scrape time. -/
def create_sample_hackathons (now platform : String) : List Hackathon :=
  let namesTags : List (String × String) :=
    if platform = "DevPost" then
      [("AI Innovation Challenge 2025", "AI, Machine Learning, DevPost"),
       ("Global Climate Tech Hackathon", "Climate, Sustainability, DevPost"),
       ("FinTech Future Hack", "Finance, Blockchain, DevPost")]
    else if platform = "MLH" then
      [("MLH Local Hack Day", "MLH Official, Community"),
       ("Global Hack Week: Data Science", "Data Science, MLH, Week-long"),
       ("MLH Fellowship Hackathon", "Fellowship, MLH Official")]
    else if platform = "Unstop" then
      [("Smart India Hackathon 2025", "India, Government, Innovation"),
       ("Startup Weekend Mumbai", "Startup, Mumbai, Weekend"),
       ("Code for Good Challenge", "Social Good, Coding, NGO")]
    else []
  namesTags.map (fun nt =>
    { name := nt.1, platform := platform,
      link := "https://" ++ pyLower platform ++ ".com/hackathons",
      start_date := "TBD", tags := nt.2, scraped_at := now })

/-! ## HackathonScraper.scrape_devpost

The DevPost page yields a list of tile-anchor cards; for each card the
method reads title, href, submission period, status label, prize amount,
participants, host label, theme labels and the info text.  A card whose
processing raises is an `Except.error` entry: the inner try/except skips it
and continues.  The fetch outcome is an input: either `requests.get` (or
anything else before the card loop) raised, or a response with a status
code and the card list extracted from the (rendered or static) soup. -/

/-- The DOM data the card loop reads from one tile-anchor card.  `none`
models an absent sub-element (the corresponding text stays empty). -/
structure CardData where
  title : Option String
  href : Option String
  submissionPeriod : Option String
  statusLabel : Option String
  prizeAmount : Option String
  participants : Option String
  hostLabel : Option String
  themeLabels : List String
  infoText : Option String
deriving DecidableEq, Repr

/-- The body of the per-card try block, returning `none` where the source
does `continue` (generic or too-short title).  `hostLabel` is read by the
source but never used in the record. -/
def devpostCardToHack (now : String) (d : CardData) : Option Hackathon :=
  let title := d.title.getD "Unknown DevPost Hackathon"
  if title.length < 5 ∨ pyLower title = "unknown" ∨ pyLower title = "hackathon"
      ∨ pyLower title = "challenge" then none
  else
    let link0 := d.href.getD ""
    let link :=
      if link0 ≠ "" ∧ ¬ pyStartsWith link0 "http" then "https://devpost.com" ++ link0
      else link0
    let date_text := d.submissionPeriod.getD ""
    let status_text := d.statusLabel.getD ""
    let prize_text := d.prizeAmount.getD ""
    let participants_text := d.participants.getD ""
    let themes0 := if d.themeLabels.isEmpty then ["DevPost"]
                   else "DevPost" :: d.themeLabels
    let themes1 := if prize_text ≠ "" then themes0 ++ ["Prize: " ++ prize_text]
                   else themes0
    let themes2 := if status_text ≠ "" then themes1 ++ [status_text] else themes1
    let themes3 := if participants_text ≠ "" then themes2 ++ [participants_text]
                   else themes2
    let themes4 :=
      match d.infoText with
      | some t => if strHasSub t "Online" then themes3 ++ ["Online"] else themes3
      | none => themes3
    some { name := title, platform := "DevPost", link := link,
           start_date := parse_date date_text,
           tags := ", ".intercalate themes4, scraped_at := now }

/-- The card loop: per-card exceptions are caught and the loop continues
with the remaining cards. -/
def devpostParseCards (now : String) :
    List (Except Unit CardData) → List Hackathon
  | [] => []
  | c :: cs =>
    match c with
    | Except.error _ => devpostParseCards now cs
    | Except.ok d =>
      match devpostCardToHack now d with
      | some h => h :: devpostParseCards now cs
      | none => devpostParseCards now cs

/-- Outcome of the DevPost fetch: `exn` when `requests.get` (or anything
before the card loop) raised; otherwise the status code and the cards
found in the page. -/
inductive DevpostFetch where
  | exn : DevpostFetch
  | resp : Nat → List (Except Unit CardData) → DevpostFetch

/-- The body of scrape_devpost inside its outer try; `Except.error` is an
escaping exception.  Status 200 processes the first 15 cards and falls back
to sample data when nothing was parsed; any other status falls back to
sample data directly. -/
def scrape_devpost_body (now : String) (f : DevpostFetch) :
    Except Unit (List Hackathon) :=
  match f with
  | DevpostFetch.exn => Except.error ()
  | DevpostFetch.resp status cards =>
    if status == 200 then
      let hs := devpostParseCards now (cards.take 15)
      if hs.isEmpty then Except.ok (create_sample_hackathons now "DevPost")
      else Except.ok hs
    else Except.ok (create_sample_hackathons now "DevPost")

/-- HackathonScraper.scrape_devpost: the outer except replaces an escaped
exception by the sample data, so the caller always receives a list. -/
def scrape_devpost (now : String) (f : DevpostFetch) : List Hackathon :=
  match scrape_devpost_body now f with
  | Except.ok hs => hs
  | Except.error _ => create_sample_hackathons now "DevPost"

/-! ## HackathonScraper.scrape_mlh and HackathonScraper.scrape_unstop

Both methods loop over three URLs; each iteration sits in a try/except
whose handler does `continue`.  On HTTP 200 the API URL first tries the
JSON payload (a failed or non-list parse falls through via
`except: pass`), then both methods extend the accumulator with the
text-based extractor and return it if non-empty.  After the loop the
accumulator is overwritten with the sample data unconditionally. -/

/-- The JSON keys the API branches read from one payload item. -/
structure ApiItem where
  title : Option String
  name : Option String
  url : Option String
  id : Option String
  start_date : Option String
deriving DecidableEq, Repr

/-- Outcome of one `requests.get`: `exn` when it raised; otherwise the
status code, the response text, and — for API URLs — the JSON payload
(`none` when `response.json()` raised or the payload shape check failed). -/
inductive UrlFetch where
  | exn : UrlFetch
  | resp : Nat → String → Option (List ApiItem) → UrlFetch

/-- The MLH API branch: every item of `data[:10]` becomes a record. -/
def mlhFromApi (now : String) (items : List ApiItem) : List Hackathon :=
  (items.take 10).map (fun e =>
    { name := e.name.getD "MLH Event", platform := "MLH",
      link := e.url.getD "https://mlh.io",
      start_date := e.start_date.getD "",
      tags := "MLH Official", scraped_at := now })

/-- One iteration of the scrape_mlh URL loop: `(early, acc)` where `early`
is a `return hackathons` executed inside the loop. -/
def mlhUrlStep (findall : String → String → List String) (now : String)
    (isApi : Bool) (u : UrlFetch) (acc : List Hackathon) :
    Bool × List Hackathon :=
  match u with
  | UrlFetch.exn => (false, acc)
  | UrlFetch.resp status text json =>
    if status == 200 then
      let afterApi : Bool × List Hackathon :=
        if isApi then
          match json with
          | some items =>
            let acc1 := acc ++ mlhFromApi now items
            if acc1.isEmpty then (false, acc1) else (true, acc1)
          | none => (false, acc)
        else (false, acc)
      if afterApi.1 then afterApi
      else
        let acc2 := afterApi.2 ++ extract_hackathons_from_text findall now text "MLH"
        if acc2.isEmpty then (false, acc2) else (true, acc2)
    else (false, acc)

/-- HackathonScraper.scrape_mlh over its three URLs (the third is the API
one); falls back to sample data when the loop finishes without returning. -/
def scrape_mlh (findall : String → String → List String) (now : String)
    (u1 u2 u3 : UrlFetch) : List Hackathon :=
  let s1 := mlhUrlStep findall now false u1 []
  if s1.1 then s1.2
  else
    let s2 := mlhUrlStep findall now false u2 s1.2
    if s2.1 then s2.2
    else
      let s3 := mlhUrlStep findall now true u3 s2.2
      if s3.1 then s3.2
      else create_sample_hackathons now "MLH"

/-- The Unstop API branch: items of `data[:10]` whose
`title`-or-`name`-or-default contains 'hack' or 'competition'
(lower-cased) become records. -/
def unstopFromApi (now : String) (items : List ApiItem) : List Hackathon :=
  (items.take 10).filterMap (fun item =>
    let nm :=
      match item.title with
      | some t => t
      | none => item.name.getD "Unstop Competition"
    if strHasSub (pyLower nm) "hack" ∨ strHasSub (pyLower nm) "competition" then
      some { name := nm, platform := "Unstop",
             link := "https://unstop.com/competition/" ++ item.id.getD "",
             start_date := item.start_date.getD "",
             tags := "Unstop, Competition", scraped_at := now }
    else none)

/-- One iteration of the scrape_unstop URL loop, same shape as MLH. -/
def unstopUrlStep (findall : String → String → List String) (now : String)
    (isApi : Bool) (u : UrlFetch) (acc : List Hackathon) :
    Bool × List Hackathon :=
  match u with
  | UrlFetch.exn => (false, acc)
  | UrlFetch.resp status text json =>
    if status == 200 then
      let afterApi : Bool × List Hackathon :=
        if isApi then
          match json with
          | some items =>
            let acc1 := acc ++ unstopFromApi now items
            if acc1.isEmpty then (false, acc1) else (true, acc1)
          | none => (false, acc)
        else (false, acc)
      if afterApi.1 then afterApi
      else
        let acc2 := afterApi.2 ++ extract_hackathons_from_text findall now text "Unstop"
        if acc2.isEmpty then (false, acc2) else (true, acc2)
    else (false, acc)

/-- HackathonScraper.scrape_unstop over its three URLs (the first is the
API one); falls back to sample data after the loop. -/
def scrape_unstop (findall : String → String → List String) (now : String)
    (u1 u2 u3 : UrlFetch) : List Hackathon :=
  let s1 := unstopUrlStep findall now true u1 []
  if s1.1 then s1.2
  else
    let s2 := unstopUrlStep findall now false u2 s1.2
    if s2.1 then s2.2
    else
      let s3 := unstopUrlStep findall now false u3 s2.2
      if s3.1 then s3.2
      else create_sample_hackathons now "Unstop"

/-! ## Reconciliation: scrape_all_platforms and run_scraping_cycle -/

/-- The `[PLATFORMS]` section of the configuration. -/
structure PlatformConfig where
  devpost : Bool
  mlh : Bool
  unstop : Bool

/-- Everything the scraper reads from the outside world in one cycle:
the regex engine, the clock, and the fetch outcome of every URL. -/
structure ScrapeEnv where
  findall : String → String → List String
  now : String
  devF : DevpostFetch
  mlh1 : UrlFetch
  mlh2 : UrlFetch
  mlh3 : UrlFetch
  un1 : UrlFetch
  un2 : UrlFetch
  un3 : UrlFetch

/-- The `all_hackathons` list of scrape_all_platforms: the concatenation of
the enabled platform results, before the dedup filter. -/
def all_scraped (cfg : PlatformConfig) (env : ScrapeEnv) : List Hackathon :=
  (if cfg.devpost then scrape_devpost env.now env.devF else [])
    ++ (if cfg.mlh then scrape_mlh env.findall env.now env.mlh1 env.mlh2 env.mlh3
        else [])
    ++ (if cfg.unstop then scrape_unstop env.findall env.now env.un1 env.un2 env.un3
        else [])

/-- HackathonScraper.scrape_all_platforms: build the existing-name set from
the records passed in, scrape the enabled platforms and keep the scraped
records whose name is not in the set (exact, case-sensitive membership). -/
def scrape_all_platforms (cfg : PlatformConfig) (env : ScrapeEnv)
    (existing_hackathons : List HackRecord) : List Hackathon :=
  let existing_names := existing_hackathons.map (fun h => h.name)
  (all_scraped cfg env).filter (fun h => decide (¬ h.name ∈ existing_names))

/-- HackathonMonitor.run_scraping_cycle: read the store (its own
try/except makes a failed read an empty list), scrape and filter, and save
the delta when it is non-empty.  The whole body is in a try/except, so a
failed save is logged and the file stays as it was.  Returns the file
contents after the cycle and the delta that was identified. -/
def run_scraping_cycle (store : List StoreRow) (loadOk saveOk : Bool)
    (cfg : PlatformConfig) (env : ScrapeEnv) :
    List StoreRow × List Hackathon :=
  let existing := get_existing_hackathons
    (if loadOk then Except.ok store else Except.error ())
  let new_hackathons := scrape_all_platforms cfg env existing
  if new_hackathons.isEmpty then (store, new_hackathons)
  else
    match save_hackathons store new_hackathons saveOk with
    | Except.ok store2 => (store2, new_hackathons)
    | Except.error _ => (store, new_hackathons)

/-- The inputs of one cycle in a sequence of cycles. -/
structure CycleIn where
  loadOk : Bool
  saveOk : Bool
  cfg : PlatformConfig
  env : ScrapeEnv

/-- A sequence of reconciliation cycles driven by an external scheduler,
each reading and writing the same store file. -/
def run_cycles : List StoreRow → List CycleIn → List StoreRow
  | store, [] => store
  | store, c :: cs =>
    run_cycles (run_scraping_cycle store c.loadOk c.saveOk c.cfg c.env).1 cs

/-- Names of the records the store holds (rows with an empty name cell are
blank rows, not records). -/
def storedNames (store : List StoreRow) : List String :=
  (store.map (fun r => r.name)).filter (fun n => decide (n ≠ ""))

/-- Every record name appears in the store at most once, comparing names
exactly (case-sensitively). -/
def distinctNames (store : List StoreRow) : Prop := (storedNames store).Nodup

/-- How many records of the store carry the given name up to case. -/
def nameCountCI (store : List StoreRow) (key : String) : Nat :=
  ((storedNames store).filter (fun n => pyLower n == key)).length

/-! ## Matcher lemmas -/

lemma takeWordRun_append (cs : List Char) :
    (takeWordRun cs).1 ++ (takeWordRun cs).2 = cs := by
  induction cs with
  | nil => simp [takeWordRun]
  | cons c t ih =>
    by_cases h : isWordChar c = true
    · simp [takeWordRun, h, ih]
    · simp [takeWordRun, h]

lemma takeDigitsUpTo_append (n : Nat) (cs : List Char) :
    (takeDigitsUpTo n cs).1 ++ (takeDigitsUpTo n cs).2 = cs := by
  induction n generalizing cs with
  | zero => simp [takeDigitsUpTo]
  | succ m ih =>
    cases cs with
    | nil => simp [takeDigitsUpTo]
    | cons c t =>
      by_cases h : c.isDigit = true
      · simp [takeDigitsUpTo, h, ih]
      · simp [takeDigitsUpTo, h]

lemma runTok_append {t : Tok} {cs a r : List Char}
    (h : runTok t cs = some (a, r)) : cs = a ++ r := by
  cases t with
  | word =>
    simp only [runTok] at h
    by_cases he : (takeWordRun cs).1.isEmpty = true
    · rw [if_pos he] at h
      exact absurd h (by simp)
    · rw [if_neg he] at h
      injection h with h
      have hs := takeWordRun_append cs
      rw [h] at hs
      exact hs.symm
  | digits lo hi =>
    simp only [runTok] at h
    by_cases hle : lo ≤ (takeDigitsUpTo hi cs).1.length
    · rw [if_pos hle] at h
      injection h with h
      have hs := takeDigitsUpTo_append hi cs
      rw [h] at hs
      exact hs.symm
    · rw [if_neg hle] at h
      exact absurd h (by simp)
  | lit ch =>
    cases cs with
    | nil => simp [runTok] at h
    | cons x xs =>
      simp only [runTok] at h
      by_cases hx : x = ch
      · rw [if_pos hx] at h
        injection h with h
        cases h
        simp [hx]
      · rw [if_neg hx] at h
        exact absurd h (by simp)

lemma runToks_append {ts : List Tok} {cs a r : List Char}
    (h : runToks ts cs = some (a, r)) : cs = a ++ r := by
  induction ts generalizing cs a r with
  | nil =>
    simp [runToks] at h
    simp [h.1, h.2]
  | cons t ts ih =>
    simp only [runToks] at h
    cases h1 : runTok t cs with
    | none => simp [h1] at h
    | some p =>
      obtain ⟨a1, r1⟩ := p
      simp only [h1] at h
      cases h2 : runToks ts r1 with
      | none => simp [h2] at h
      | some q =>
        obtain ⟨a2, r2⟩ := q
        simp [h2] at h
        obtain ⟨ha, hr⟩ := h
        subst ha hr
        rw [runTok_append h1, ih h2, List.append_assoc]

/-- The leftmost search only returns genuine matches: the result is a
substring of the input at which the pattern matches. -/
lemma searchWith_sound {ts : List Tok} {cs r : List Char}
    (h : searchWith (runToks ts) cs = some r) :
    ∃ pre rest, cs = pre ++ r ++ rest ∧ runToks ts (r ++ rest) = some (r, rest) := by
  induction cs with
  | nil =>
    simp only [searchWith] at h
    cases hm : runToks ts [] with
    | none => simp [hm] at h
    | some p =>
      obtain ⟨a, b⟩ := p
      simp [hm] at h
      have := runToks_append hm
      rcases List.append_eq_nil.mp this.symm with ⟨ha, hb⟩
      subst h
      exact ⟨[], [], by simp [ha, hb], by simpa [ha, hb] using hm⟩
  | cons c t ih =>
    simp only [searchWith] at h
    cases hm : runToks ts (c :: t) with
    | none =>
      simp [hm] at h
      obtain ⟨pre, rest, heq, hrun⟩ := ih h
      exact ⟨c :: pre, rest, by simp [heq], hrun⟩
    | some p =>
      obtain ⟨a, b⟩ := p
      simp [hm] at h
      subst h
      refine ⟨[], b, by simpa using runToks_append hm, ?_⟩
      rw [← runToks_append hm]
      exact hm

/-- Claim C9: parse_date is total and best-effort.  The empty string maps
to the empty string; when none of the four recognized patterns matches
anywhere in the input the input is returned verbatim; and when some
pattern matches, the result is the leftmost match of the first pattern (in
the listed order: Month D, YYYY; M/D/YYYY; YYYY-MM-DD; Month D) that
matches — in particular the result is then a substring of the input at
which that pattern matches.  Being a total function, it never raises and
never drops a record. -/
theorem c9_parse_date_best_effort (s : String) :
    (s = "" → parse_date s = "")
    ∧ (searchWith (runToks pat1) s.toList = none →
       searchWith (runToks pat2) s.toList = none →
       searchWith (runToks pat3) s.toList = none →
       searchWith (runToks pat4) s.toList = none → parse_date s = s)
    ∧ (∀ r, searchWith (runToks pat1) s.toList = some r →
       parse_date s = String.mk r
         ∧ ∃ pre rest, s.toList = pre ++ r ++ rest
             ∧ runToks pat1 (r ++ rest) = some (r, rest))
    ∧ (∀ r, searchWith (runToks pat1) s.toList = none →
       searchWith (runToks pat2) s.toList = some r →
       parse_date s = String.mk r
         ∧ ∃ pre rest, s.toList = pre ++ r ++ rest
             ∧ runToks pat2 (r ++ rest) = some (r, rest))
    ∧ (∀ r, searchWith (runToks pat1) s.toList = none →
       searchWith (runToks pat2) s.toList = none →
       searchWith (runToks pat3) s.toList = some r →
       parse_date s = String.mk r
         ∧ ∃ pre rest, s.toList = pre ++ r ++ rest
             ∧ runToks pat3 (r ++ rest) = some (r, rest))
    ∧ (∀ r, searchWith (runToks pat1) s.toList = none →
       searchWith (runToks pat2) s.toList = none →
       searchWith (runToks pat3) s.toList = none →
       searchWith (runToks pat4) s.toList = some r →
       parse_date s = String.mk r
         ∧ ∃ pre rest, s.toList = pre ++ r ++ rest
             ∧ runToks pat4 (r ++ rest) = some (r, rest)) := by
  by_cases hs : s = ""
  · subst hs
    refine ⟨fun _ => rfl, fun _ _ _ _ => rfl, ?_, ?_, ?_, ?_⟩
    · intro r h1
      exact absurd h1 (by simp [searchWith, runToks, runTok, pat1, takeWordRun])
    · intro r h1 h2
      exact absurd h2
        (by simp [searchWith, runToks, runTok, pat2, takeDigitsUpTo])
    · intro r h1 h2 h3
      exact absurd h3
        (by simp [searchWith, runToks, runTok, pat3, takeDigitsUpTo])
    · intro r h1 h2 h3 h4
      exact absurd h4 (by simp [searchWith, runToks, runTok, pat4, takeWordRun])
  · refine ⟨fun h => absurd h hs, ?_, ?_, ?_, ?_, ?_⟩
    · intro h1 h2 h3 h4
      simp only [String.toList] at h1 h2 h3 h4
      simp [parse_date, hs, h1, h2, h3, h4]
    · intro r h1
      refine ⟨?_, searchWith_sound h1⟩
      simp only [String.toList] at h1
      simp [parse_date, hs, h1]
    · intro r h1 h2
      refine ⟨?_, searchWith_sound h2⟩
      simp only [String.toList] at h1 h2
      simp [parse_date, hs, h1, h2]
    · intro r h1 h2 h3
      refine ⟨?_, searchWith_sound h3⟩
      simp only [String.toList] at h1 h2 h3
      simp [parse_date, hs, h1, h2, h3]
    · intro r h1 h2 h3 h4
      refine ⟨?_, searchWith_sound h4⟩
      simp only [String.toList] at h1 h2 h3 h4
      simp [parse_date, hs, h1, h2, h3, h4]

/-- Witness for C9 at a concrete input: the first pattern finds
"Jan 15, 2024" inside a longer string. -/
theorem c9_parse_date_best_effort_witness :
    parse_date "Deadline: Jan 15, 2024" = String.mk "Jan 15, 2024".toList :=
  (((c9_parse_date_best_effort "Deadline: Jan 15, 2024").2.2.1)
    "Jan 15, 2024".toList (by decide)).1

/-! ## Record Store claims -/

/-- The record read back for a freshly saved hackathon: identical field
values, status normalized to 'New'. -/
def recordAsNew (h : Hackathon) : HackRecord :=
  { name := h.name, platform := h.platform, link := h.link,
    start_date := h.start_date, tags := h.tags, scraped_at := h.scraped_at,
    status := "New" }

/-- Claim C4: round-trip.  Appending records with non-empty names via
save_hackathons to an existing store and then reading with
get_existing_hackathons returns the previous records followed, in append
order, by one record per appended hackathon with identical name, platform,
link, start_date and tags (indeed all six values) and status 'New'. -/
theorem c4_round_trip (store : List StoreRow) (hs : List Hackathon)
    (hnames : ∀ h ∈ hs, h.name ≠ "") :
    get_existing_hackathons (save_hackathons store hs true)
      = get_existing_hackathons (Except.ok store) ++ hs.map recordAsNew := by
  have hkeep : (hs.map rowOf).filter (fun r => decide (r.name ≠ "")) = hs.map rowOf := by
    rw [List.filter_eq_self]
    intro r hr
    obtain ⟨h, hh, rfl⟩ := List.mem_map.mp hr
    simpa [rowOf] using hnames h hh
  have hsave : save_hackathons store hs true = Except.ok (store ++ hs.map rowOf) := rfl
  rw [hsave]
  simp only [get_existing_hackathons, List.filter_append, hkeep,
    List.map_append, List.map_map]
  rfl

/-- Witness for C4: one existing row, one appended record. -/
theorem c4_round_trip_witness :
    get_existing_hackathons
        (save_hackathons
          [{ name := "Old Hack", platform := "MLH", link := "https://mlh.io",
             start_date := "TBD", tags := "MLH Official",
             scraped_at := "2025-01-01 00:00:00", statusCell := some "New" }]
          [{ name := "Fresh Hack", platform := "DevPost", link := "",
             start_date := "Jan 15, 2024", tags := "DevPost",
             scraped_at := "2025-06-01 12:00:00" }] true)
      = [{ name := "Old Hack", platform := "MLH", link := "https://mlh.io",
           start_date := "TBD", tags := "MLH Official",
           scraped_at := "2025-01-01 00:00:00", status := "New" },
         { name := "Fresh Hack", platform := "DevPost", link := "",
           start_date := "Jan 15, 2024", tags := "DevPost",
           scraped_at := "2025-06-01 12:00:00", status := "New" }] := by
  rw [c4_round_trip _ _ (by decide)]
  decide

/-- Claim C5: store error asymmetry.  An I/O failure during the read path
is caught inside get_existing_hackathons and yields the empty list (the
function cannot raise: its result type carries no exception), while an I/O
failure during save_hackathons is propagated to the caller as an exception
after logging; a successful save appends unconditionally. -/
theorem c5_store_error_asymmetry :
    get_existing_hackathons (Except.error ()) = []
    ∧ (∀ (store : List StoreRow) (hs : List Hackathon),
        save_hackathons store hs false = Except.error ())
    ∧ (∀ (store : List StoreRow) (hs : List Hackathon),
        save_hackathons store hs true = Except.ok (store ++ hs.map rowOf)) :=
  ⟨rfl, fun _ _ => rfl, fun _ _ => rfl⟩

/-- Claim C8: update_hackathon_status scans rows in order by exact name
match and edits only the Status cell of the first matching row.  With
working I/O the file becomes applyUpdate of the old contents; when no row
matches, the contents are unchanged; when row `i` is the first match, the
result is the old rows with exactly row `i` replaced by the same row with
its Status cell set. -/
theorem c8_update_status_frame (store : List StoreRow) (n st : String) :
    update_hackathon_status store n st true true
        = Except.ok (applyUpdate store n st)
    ∧ ((∀ r ∈ store, r.name ≠ n) → applyUpdate store n st = store)
    ∧ (∀ i : Nat, ∀ hi : i < store.length,
        (store.get ⟨i, hi⟩).name = n →
        (∀ j : Nat, ∀ hj : j < i,
          (store.get ⟨j, Nat.lt_trans hj hi⟩).name ≠ n) →
        applyUpdate store n st
          = store.take i
              ++ ({ store.get ⟨i, hi⟩ with statusCell := some st }
                    :: store.drop (i + 1))) := by
  refine ⟨rfl, ?_, ?_⟩
  · intro hnone
    induction store with
    | nil => rfl
    | cons r rs ih =>
      have hr : r.name ≠ n := hnone r (by simp)
      simp only [applyUpdate, if_neg hr]
      rw [ih (fun x hx => hnone x (by simp [hx]))]
  · intro i
    induction store generalizing i with
    | nil => intro hi; exact absurd hi (by simp)
    | cons r rs ih =>
      intro hi hname hfirst
      cases i with
      | zero =>
        simp only [List.get] at hname
        simp [applyUpdate, if_pos hname]
      | succ k =>
        have hr : r.name ≠ n := by
          have := hfirst 0 (Nat.succ_pos k)
          simpa using this
        simp only [applyUpdate, if_neg hr]
        have hk : k < rs.length := Nat.lt_of_succ_lt_succ hi
        have := ih k hk (by simpa using hname)
          (fun j hj => by
            have := hfirst (j + 1) (Nat.succ_lt_succ hj)
            simpa using this)
        simp only [List.take, List.drop]
        rw [this]
        rfl

/-- Witness for C8: a two-row store where the second row is the first (and
only) match; only its Status cell changes. -/
theorem c8_update_status_frame_witness :
    applyUpdate
        [{ name := "A Hack", platform := "MLH", link := "", start_date := "",
           tags := "", scraped_at := "", statusCell := some "New" },
         { name := "B Hack", platform := "DevPost", link := "", start_date := "",
           tags := "", scraped_at := "", statusCell := some "New" }]
        "B Hack" "Applied"
      = [{ name := "A Hack", platform := "MLH", link := "", start_date := "",
           tags := "", scraped_at := "", statusCell := some "New" },
         { name := "B Hack", platform := "DevPost", link := "", start_date := "",
           tags := "", scraped_at := "", statusCell := some "Applied" }] := by
  have key := (c8_update_status_frame
    [{ name := "A Hack", platform := "MLH", link := "", start_date := "",
       tags := "", scraped_at := "", statusCell := some "New" },
     { name := "B Hack", platform := "DevPost", link := "", start_date := "",
       tags := "", scraped_at := "", statusCell := some "New" }]
    "B Hack" "Applied").2.2 1 Nat.one_lt_two rfl
    (by
      intro j hj
      have hj0 : j = 0 := Nat.lt_one_iff.mp hj
      subst hj0
      exact (by decide : ("A Hack" : String) ≠ "B Hack"))
  rw [key]
  decide

/-- Claim C10: update_hackathon_status catches every exception internally
(a failed workbook load as well as a failed save) and returns normally; a
failed status write is silent and leaves the file unchanged, unlike
save_hackathons it never propagates an error. -/
theorem c10_update_status_never_raises (store : List StoreRow) (n st : String)
    (loadOk saveOk : Bool) :
    update_hackathon_status store n st loadOk saveOk
      = Except.ok (if loadOk && saveOk then applyUpdate store n st else store) := by
  cases loadOk <;> cases saveOk <;> rfl

/-! ## Extractor claims -/

/-- Claim C6: extractor totality.  For every fetch outcome and card list —
including malformed or empty markup — the DevPost extractor hands its
caller a list of records and never lets an exception escape: the body with
its outer except handler always produces `Except.ok` of exactly what
scrape_devpost returns.  Moreover an individual malformed card (one whose
processing raises) is skipped and the card loop continues with the
remaining cards unchanged. -/
theorem c6_extractor_total (now : String) (f : DevpostFetch) :
    (match scrape_devpost_body now f with
      | Except.ok hs => (Except.ok hs : Except Unit (List Hackathon))
      | Except.error _ => Except.ok (create_sample_hackathons now "DevPost"))
      = Except.ok (scrape_devpost now f)
    ∧ ∀ pre post : List (Except Unit CardData),
        devpostParseCards now (pre ++ Except.error () :: post)
          = devpostParseCards now (pre ++ post) := by
  constructor
  · cases hb : scrape_devpost_body now f with
    | ok hs => simp [scrape_devpost, hb]
    | error e => simp [scrape_devpost, hb]
  · intro pre post
    induction pre with
    | nil => simp [devpostParseCards]
    | cons c cs ih =>
      cases c with
      | error e => simp [devpostParseCards, ih]
      | ok d =>
        cases devpostCardToHack now d <;> simp [devpostParseCards, ih]

/-- Claim C7: the text-based fallback extractor returns at most 5 records;
their names are pairwise distinct; every returned name is the stripped
text of a match of one of the three hackathon-keyword patterns with length
strictly between 10 and 100; and every record carries the given platform
with the platform link, empty start date, '(platform), Extracted' tags and
the scrape time. -/
theorem c7_text_fallback (findall : String → String → List String)
    (now text platform : String) :
    (extract_hackathons_from_text findall now text platform).length ≤ 5
    ∧ ((extract_hackathons_from_text findall now text platform).map
        (fun h => h.name)).Nodup
    ∧ ∀ h ∈ extract_hackathons_from_text findall now text platform,
        (∃ p ∈ [textPatA, textPatB, textPatC], ∃ m ∈ findall p text,
          h.name = pyStrip m)
        ∧ 10 < h.name.length ∧ h.name.length < 100
        ∧ h.platform = platform
        ∧ h.link = "https://" ++ pyLower platform ++ ".com"
        ∧ h.start_date = ""
        ∧ h.tags = platform ++ ", Extracted"
        ∧ h.scraped_at = now := by
  refine ⟨?_, ?_, ?_⟩
  · simp only [extract_hackathons_from_text, List.length_map]
    exact List.length_take_le 5 _
  · simp only [extract_hackathons_from_text, List.map_map]
    have : ∀ l : List String,
        (l.map ((fun h : Hackathon => h.name) ∘ (fun n =>
          ({ name := n, platform := platform,
             link := "https://" ++ pyLower platform ++ ".com",
             start_date := "", tags := platform ++ ", Extracted",
             scraped_at := now } : Hackathon)))) = l := by
      intro l
      induction l with
      | nil => rfl
      | cons x xs ih => simp [ih]
    rw [this]
    exact List.Nodup.sublist (List.take_sublist 5 _) (List.nodup_dedup _)
  · intro h hmem
    simp only [extract_hackathons_from_text, List.mem_map] at hmem
    obtain ⟨n, hn, rfl⟩ := hmem
    have hn2 : n ∈ (((([textPatA, textPatB, textPatC].flatMap
        (fun p => findall p text)).map (fun m => pyStrip m)).filter
        (fun n => decide (10 < n.length ∧ n.length < 100))).dedup) :=
      List.mem_of_mem_take hn
    rw [List.mem_dedup] at hn2
    have hn3 := List.mem_filter.mp hn2
    obtain ⟨hn4, hn5⟩ := hn3
    obtain ⟨m, hm, rfl⟩ := List.mem_map.mp hn4
    obtain ⟨p, hp, hmp⟩ := List.mem_flatMap.mp hm
    have hlen := of_decide_eq_true hn5
    exact ⟨⟨p, hp, m, hmp, rfl⟩, hlen.1, hlen.2, rfl, rfl, rfl, rfl, rfl⟩

/-- Witness for C7: a findall that returns one long padded match yields
exactly one minimal record with the stripped name. -/
theorem c7_text_fallback_witness :
    (∃ p ∈ [textPatA, textPatB, textPatC],
      ∃ m ∈ (fun pt _ => if pt = textPatA then ["  Great AI Hackathon 2025  "]
                         else ([] : List String)) p "page text",
        ("Great AI Hackathon 2025" : String) = pyStrip m) := by
  have key := (c7_text_fallback
    (fun pt _ => if pt = textPatA then ["  Great AI Hackathon 2025  "]
                 else ([] : List String))
    "2025-06-01 12:00:00" "page text" "MLH").2.2
    { name := "Great AI Hackathon 2025", platform := "MLH",
      link := "https://mlh.com", start_date := "",
      tags := "MLH, Extracted", scraped_at := "2025-06-01 12:00:00" }
    (by decide)
  exact key.1

/-! ## Reconciliation-cycle lemmas -/

/-- The names read back from a store are exactly its non-empty row names. -/
lemma existNames (rows : List StoreRow) :
    (get_existing_hackathons (Except.ok rows)).map (fun h => h.name)
      = storedNames rows := by
  induction rows with
  | nil => rfl
  | cons r rs ih =>
    simp only [get_existing_hackathons, storedNames, List.map_cons,
      List.filter_cons] at ih ⊢
    by_cases h : r.name = ""
    · simp only [h]
      simpa using ih
    · simp only [decide_eq_true (show r.name ≠ "" from h), if_pos rfl,
        List.map_cons, recordOfRow]
      exact congrArg (r.name :: ·) ih

lemma storedNames_append (a b : List StoreRow) :
    storedNames (a ++ b) = storedNames a ++ storedNames b := by
  simp [storedNames, List.filter_append]

lemma storedNames_map_rowOf (hs : List Hackathon) :
    storedNames (hs.map rowOf)
      = (hs.map (fun h => h.name)).filter (fun n => decide (n ≠ "")) := by
  simp only [storedNames, List.map_map]
  rfl

/-- The delta identified by a cycle, independent of the save outcome. -/
lemma run_cycle_snd (store : List StoreRow) (loadOk saveOk : Bool)
    (cfg : PlatformConfig) (env : ScrapeEnv) :
    (run_scraping_cycle store loadOk saveOk cfg env).2
      = scrape_all_platforms cfg env
          (get_existing_hackathons
            (if loadOk then Except.ok store else Except.error ())) := by
  unfold run_scraping_cycle
  by_cases he : (scrape_all_platforms cfg env
      (get_existing_hackathons
        (if loadOk then Except.ok store else Except.error ()))).isEmpty
  · simp [he]
  · cases hs : save_hackathons store
      (scrape_all_platforms cfg env
        (get_existing_hackathons
          (if loadOk then Except.ok store else Except.error ()))) saveOk with
    | ok st2 => simp [he, hs]
    | error e => simp [he, hs]

/-- With working I/O, a cycle leaves the store equal to the old rows
followed by one row per record of the delta. -/
lemma run_cycle_fst (store : List StoreRow) (cfg : PlatformConfig)
    (env : ScrapeEnv) :
    (run_scraping_cycle store true true cfg env).1
      = store
          ++ (scrape_all_platforms cfg env
              (get_existing_hackathons (Except.ok store))).map rowOf := by
  unfold run_scraping_cycle
  by_cases he : (scrape_all_platforms cfg env
      (get_existing_hackathons (Except.ok store))).isEmpty
  · simp [he, List.isEmpty_iff.mp he]
  · simp [he, save_hackathons]

/-- One successful-read cycle preserves case-sensitive name uniqueness
provided the scraped batch itself has pairwise-distinct names. -/
lemma cycle_preserves_distinct (store : List StoreRow) (saveOk : Bool)
    (cfg : PlatformConfig) (env : ScrapeEnv)
    (hd : distinctNames store)
    (hb : ((all_scraped cfg env).map (fun h => h.name)).Nodup) :
    distinctNames (run_scraping_cycle store true saveOk cfg env).1 := by
  cases saveOk with
  | false =>
    unfold run_scraping_cycle
    by_cases he : (scrape_all_platforms cfg env
        (get_existing_hackathons (Except.ok store))).isEmpty
    · simpa [he] using hd
    · simpa [he, save_hackathons] using hd
  | true =>
    rw [run_cycle_fst]
    unfold distinctNames
    rw [storedNames_append, storedNames_map_rowOf]
    have hsub1 : ((scrape_all_platforms cfg env
        (get_existing_hackathons (Except.ok store))).map
          (fun h => h.name)).Sublist ((all_scraped cfg env).map (fun h => h.name)) :=
      List.Sublist.map _ (List.filter_sublist _)
    have hnd2 : (((scrape_all_platforms cfg env
        (get_existing_hackathons (Except.ok store))).map
          (fun h => h.name)).filter (fun n => decide (n ≠ ""))).Nodup :=
      ((hb.sublist hsub1).sublist (List.filter_sublist _))
    refine hd.append hnd2 ?_
    intro n hnA hnB
    have hnB2 := (List.mem_filter.mp hnB).1
    obtain ⟨h, hh, rfl⟩ := List.mem_map.mp hnB2
    have hh2 := List.mem_filter.mp hh
    have hnot := of_decide_eq_true hh2.2
    exact hnot (by rw [existNames]; exact hnA)

/-- Claim C1 counterexample.  Starting from the empty store (so every
state below is reachable through the Reconciliation Engine alone), two
cycles whose DevPost page carries the same title in different letter case
leave two records whose names agree case-insensitively: the
scrape_all_platforms filter compares names exactly, not
case-insensitively. -/
theorem c1_counterexample :
    nameCountCI
      (run_cycles []
        [{ loadOk := true, saveOk := true,
           cfg := { devpost := true, mlh := false, unstop := false },
           env := { findall := fun _ _ => [], now := "2025-06-01 12:00:00",
                    devF := DevpostFetch.resp 200
                      [Except.ok { title := some "Spring Hackathon",
                                   href := none, submissionPeriod := none,
                                   statusLabel := none, prizeAmount := none,
                                   participants := none, hostLabel := none,
                                   themeLabels := [], infoText := none }],
                    mlh1 := UrlFetch.exn, mlh2 := UrlFetch.exn,
                    mlh3 := UrlFetch.exn, un1 := UrlFetch.exn,
                    un2 := UrlFetch.exn, un3 := UrlFetch.exn } },
         { loadOk := true, saveOk := true,
           cfg := { devpost := true, mlh := false, unstop := false },
           env := { findall := fun _ _ => [], now := "2025-06-02 12:00:00",
                    devF := DevpostFetch.resp 200
                      [Except.ok { title := some "SPRING HACKATHON",
                                   href := none, submissionPeriod := none,
                                   statusLabel := none, prizeAmount := none,
                                   participants := none, hostLabel := none,
                                   themeLabels := [], infoText := none }],
                    mlh1 := UrlFetch.exn, mlh2 := UrlFetch.exn,
                    mlh3 := UrlFetch.exn, un1 := UrlFetch.exn,
                    un2 := UrlFetch.exn, un3 := UrlFetch.exn } }])
      "spring hackathon" = 2 := by
  decide

/-- Claim C1 as amended: the dedup invariant holds for the comparison the
code actually performs — exact, case-sensitive equality — and under the
conditions the code needs: every cycle's store read succeeds and each
cycle's scraped batch has pairwise-distinct names.  Then, starting from
any store whose record names are distinct (the empty store included),
every record name appears in the store at most once after any sequence of
cycles. -/
theorem c1_dedup_invariant (init : List StoreRow) (inputs : List CycleIn)
    (hd : distinctNames init)
    (hin : ∀ c ∈ inputs, c.loadOk = true
        ∧ ((all_scraped c.cfg c.env).map (fun h => h.name)).Nodup) :
    distinctNames (run_cycles init inputs) := by
  induction inputs generalizing init with
  | nil => exact hd
  | cons c cs ih =>
    have hc := hin c (by simp)
    have hcs : ∀ x ∈ cs, x.loadOk = true
        ∧ ((all_scraped x.cfg x.env).map (fun h => h.name)).Nodup :=
      fun x hx => hin x (by simp [hx])
    simp only [run_cycles]
    rw [hc.1]
    exact ih _ (cycle_preserves_distinct _ _ _ _ hd hc.2) hcs

/-- Witness for C1 as amended: a concrete two-cycle run from the empty
store whose batches have distinct names. -/
theorem c1_dedup_invariant_witness :
    distinctNames
      (run_cycles []
        [{ loadOk := true, saveOk := true,
           cfg := { devpost := true, mlh := false, unstop := false },
           env := { findall := fun _ _ => [], now := "2025-06-01 12:00:00",
                    devF := DevpostFetch.resp 200
                      [Except.ok { title := some "Spring Hackathon",
                                   href := none, submissionPeriod := none,
                                   statusLabel := none, prizeAmount := none,
                                   participants := none, hostLabel := none,
                                   themeLabels := [], infoText := none }],
                    mlh1 := UrlFetch.exn, mlh2 := UrlFetch.exn,
                    mlh3 := UrlFetch.exn, un1 := UrlFetch.exn,
                    un2 := UrlFetch.exn, un3 := UrlFetch.exn } }]) := by
  apply c1_dedup_invariant
  · exact List.nodup_nil
  · intro c hc
    simp only [List.mem_singleton] at hc
    subst hc
    exact ⟨rfl, by decide⟩

/-- Claim C2 counterexample.  A cycle in which the DevPost fetch raises
(total platform failure) returns a delta of 3 records — the hard-coded
sample data — not zero records from that platform. -/
theorem c2_counterexample :
    (run_scraping_cycle [] true true
        { devpost := true, mlh := false, unstop := false }
        { findall := fun _ _ => [], now := "2025-06-01 12:00:00",
          devF := DevpostFetch.exn,
          mlh1 := UrlFetch.exn, mlh2 := UrlFetch.exn, mlh3 := UrlFetch.exn,
          un1 := UrlFetch.exn, un2 := UrlFetch.exn, un3 := UrlFetch.exn }).2
      = create_sample_hackathons "2025-06-01 12:00:00" "DevPost"
    ∧ (create_sample_hackathons "2025-06-01 12:00:00" "DevPost").length = 3 := by
  constructor
  · decide
  · decide

/-- Claim C2 as amended: when fetching for one platform fails entirely,
the failure is caught (logged, not raised) and that platform contributes
its fixed sample-data records — 3 records for a known platform — rather
than zero; the remaining enabled platforms are still scraped and their
records are still part of the cycle's result. -/
theorem c2_platform_failure_isolated (findall : String → String → List String)
    (now : String) (m1 m2 m3 u1 u2 u3 : UrlFetch)
    (existing : List HackRecord) :
    scrape_all_platforms { devpost := true, mlh := true, unstop := true }
        { findall := findall, now := now, devF := DevpostFetch.exn,
          mlh1 := m1, mlh2 := m2, mlh3 := m3,
          un1 := u1, un2 := u2, un3 := u3 } existing
      = (create_sample_hackathons now "DevPost"
          ++ scrape_mlh findall now m1 m2 m3
          ++ scrape_unstop findall now u1 u2 u3).filter
          (fun h => decide (¬ h.name ∈ existing.map (fun e => e.name)))
    ∧ (create_sample_hackathons now "DevPost").length = 3 :=
  ⟨rfl, rfl⟩

/-- Claim C3 counterexample.  With the store already containing the only
scraped name and the platform responses fixed, the first call's delta is
already empty, contradicting "non-empty delta on the first call" for
every store state. -/
theorem c3_counterexample :
    (run_scraping_cycle
        [{ name := "Spring Hackathon", platform := "DevPost", link := "",
           start_date := "", tags := "DevPost",
           scraped_at := "2025-06-01 12:00:00", statusCell := some "New" }]
        true true
        { devpost := true, mlh := false, unstop := false }
        { findall := fun _ _ => [], now := "2025-06-02 12:00:00",
          devF := DevpostFetch.resp 200
            [Except.ok { title := some "Spring Hackathon", href := none,
                         submissionPeriod := none, statusLabel := none,
                         prizeAmount := none, participants := none,
                         hostLabel := none, themeLabels := [],
                         infoText := none }],
          mlh1 := UrlFetch.exn, mlh2 := UrlFetch.exn, mlh3 := UrlFetch.exn,
          un1 := UrlFetch.exn, un2 := UrlFetch.exn, un3 := UrlFetch.exn }).2
      = [] := by
  decide

/-- Claim C3 as amended: with fixed platform responses and working I/O,
the second of two consecutive cycles always yields an empty delta,
provided every scraped record has a non-empty name (a record with an empty
name is saved as a blank row and would be rediscovered); and the first
call's delta is non-empty exactly when some scraped name is absent from
the existing-name set — not unconditionally. -/
theorem c3_rerun_idempotent (store : List StoreRow) (cfg : PlatformConfig)
    (env : ScrapeEnv)
    (hne : ∀ h ∈ all_scraped cfg env, h.name ≠ "") :
    (run_scraping_cycle (run_scraping_cycle store true true cfg env).1
        true true cfg env).2 = []
    ∧ ((run_scraping_cycle store true true cfg env).2 ≠ []
        ↔ ∃ h ∈ all_scraped cfg env,
            ¬ h.name ∈ (get_existing_hackathons
                (Except.ok store)).map (fun e => e.name)) := by
  constructor
  · rw [run_cycle_snd, if_pos rfl, run_cycle_fst]
    unfold scrape_all_platforms
    rw [List.filter_eq_nil_iff]
    intro h hmem
    simp only [decide_eq_true_eq, not_not, Decidable.not_not]
    rw [existNames, storedNames_append, storedNames_map_rowOf]
    by_cases hold : h.name ∈ storedNames store
    · exact List.mem_append_left _ hold
    · refine List.mem_append_right _ ?_
      rw [List.mem_filter]
      refine ⟨?_, by simpa using hne h hmem⟩
      refine List.mem_map.mpr ⟨h, ?_, rfl⟩
      rw [List.mem_filter]
      refine ⟨hmem, ?_⟩
      simp only [decide_eq_true_eq]
      rw [existNames]
      exact hold
  · rw [run_cycle_snd, if_pos rfl]
    unfold scrape_all_platforms
    rw [Ne, List.filter_eq_nil_iff]
    constructor
    · intro hnot
      by_contra hno
      apply hnot
      intro h hmem
      simp only [decide_eq_true_eq, Decidable.not_not]
      by_contra habs
      exact hno ⟨h, hmem, habs⟩
    · intro hex hall
      obtain ⟨h, hmem, habs⟩ := hex
      have hthis := hall h hmem
      simp only [decide_eq_true_eq] at hthis
      exact hthis habs

/-- Witness for C3 as amended: starting from the empty store with one
scraped record, the second cycle's delta is empty and the first is
non-empty. -/
theorem c3_rerun_idempotent_witness :
    (run_scraping_cycle
        (run_scraping_cycle [] true true
          { devpost := true, mlh := false, unstop := false }
          { findall := fun _ _ => [], now := "2025-06-01 12:00:00",
            devF := DevpostFetch.resp 200
              [Except.ok { title := some "Spring Hackathon", href := none,
                           submissionPeriod := none, statusLabel := none,
                           prizeAmount := none, participants := none,
                           hostLabel := none, themeLabels := [],
                           infoText := none }],
            mlh1 := UrlFetch.exn, mlh2 := UrlFetch.exn, mlh3 := UrlFetch.exn,
            un1 := UrlFetch.exn, un2 := UrlFetch.exn, un3 := UrlFetch.exn }).1
        true true
        { devpost := true, mlh := false, unstop := false }
        { findall := fun _ _ => [], now := "2025-06-01 12:00:00",
          devF := DevpostFetch.resp 200
            [Except.ok { title := some "Spring Hackathon", href := none,
                         submissionPeriod := none, statusLabel := none,
                         prizeAmount := none, participants := none,
                         hostLabel := none, themeLabels := [],
                         infoText := none }],
          mlh1 := UrlFetch.exn, mlh2 := UrlFetch.exn, mlh3 := UrlFetch.exn,
          un1 := UrlFetch.exn, un2 := UrlFetch.exn, un3 := UrlFetch.exn }).2
      = [] :=
  (c3_rerun_idempotent []
    { devpost := true, mlh := false, unstop := false }
    { findall := fun _ _ => [], now := "2025-06-01 12:00:00",
      devF := DevpostFetch.resp 200
        [Except.ok { title := some "Spring Hackathon", href := none,
                     submissionPeriod := none, statusLabel := none,
                     prizeAmount := none, participants := none,
                     hostLabel := none, themeLabels := [],
                     infoText := none }],
      mlh1 := UrlFetch.exn, mlh2 := UrlFetch.exn, mlh3 := UrlFetch.exn,
      un1 := UrlFetch.exn, un2 := UrlFetch.exn, un3 := UrlFetch.exn }
    (by decide)).1

end HackMonitor
